import Mathlib

/-!
Verification of the directory-batch loading, normalization and reconstitution
pipeline of the ComfyUI-LoadImagesMultiPath node package.

The development shallowly embeds the code of utils.py, load_nodes.py and
save_nodes.py (the modules wired up by the package init file).  Pure string
and list manipulation is translated directly; the file system is modelled as
a finite map from directory paths to listings, where every listed entry
carries both its raw byte content (read by the hashing code) and its decoded
image (decoding by PIL is external to the repository).  Tensors are modelled
as dimension fields plus a total pixel function into the rationals.
External capabilities that the repository only calls (the resize kernel, the
cryptographic hash, the allowed-extension set) are modelled from the
specification and marked as such in their doc comments.
-/

-- ===================== Data model =====================

/-- A decoded source file as the code sees it after Image.open and
ImageOps.exif_transpose: a geometry, the presence of an alpha band, and the
8-bit samples of the converted RGBA or RGB representation (sample i j c is
row i, column j, channel c, a value in 0..255; channel 3 is alpha). -/
structure SrcImage where
  width : Nat
  height : Nat
  hasAlpha : Bool
  sample : Nat → Nat → Nat → Nat

/-- An image tensor of shape (height, width, channels) holding rational
samples, the model of one frame of a torch float tensor. -/
structure ImageTensor where
  height : Nat
  width : Nat
  channels : Nat
  pix : Nat → Nat → Nat → Rat

/-- A mask tensor of shape (height, width). -/
structure MaskTensor where
  height : Nat
  width : Nat
  pix : Nat → Nat → Rat

/-- One entry of a directory listing: its name, whether it is a regular file
(os.path.isfile), its raw byte content (read by calculate_file_hash) and its
decoded image (used by load_images_from_directory). -/
structure DirEntry where
  name : String
  isFile : Bool
  content : List Nat
  img : SrcImage

/-- A directory of the modelled file system. -/
structure FSDir where
  path : String
  entries : List DirEntry

/-- The file system visible to the code: a finite list of directories. -/
abbrev FileSystem := List FSDir

/-- Look a directory up by its path. -/
def lookupDir (fs : FileSystem) (d : String) : Option FSDir :=
  fs.find? (fun e => e.path == d)

/-- os.path.isdir. -/
def isdir (fs : FileSystem) (d : String) : Bool :=
  (lookupDir fs d).isSome

/-- os.listdir.  Every caller in the sources checks isdir first, so the
missing-directory case (an OSError in Python) is unreachable and modelled as
an empty listing. -/
def listdir (fs : FileSystem) (d : String) : List DirEntry :=
  match lookupDir fs d with
  | some e => e.entries
  | none => []

/-- Modelled from the spec: the allowed image extension set
(comfy.k_diffusion.utils.FolderOfImages.IMG_EXTENSIONS) belongs to the host,
not to this repository; the spec only requires a fixed set of lowercased
image extensions. -/
def IMG_EXTENSIONS : List String :=
  [".jpg", ".jpeg", ".png", ".ppm", ".bmp", ".pgm", ".tif", ".tiff", ".webp"]

-- ===================== PathNormalizer =====================

/-- The whitespace characters removed by Python str.strip in the ASCII range
(Unicode spaces are not modelled). -/
def isPySpace (c : Char) : Bool :=
  c == ' ' || c == '\t' || c == '\n' || c == '\r' || c == '\x0b' || c == '\x0c'

/-- Python str.strip(chars): remove the characters of the given set from both
ends. -/
def pyStrip (p : Char → Bool) (s : List Char) : List Char :=
  ((s.dropWhile p).reverse.dropWhile p).reverse

/-- strip_path from utils.py: strip whitespace, then all surrounding double
quote characters, then all surrounding single quote characters; none when
the result is empty. -/
def strip_path (path : String) : Option String :=
  let s := pyStrip isPySpace path.toList
  let s := pyStrip (fun c => c == Char.ofNat 34) s
  let s := pyStrip (fun c => c == Char.ofNat 39) s
  if s.isEmpty then none else some (String.mk s)

/-- Python str.strip with no argument, used by the load nodes to test
whether a slot is blank. -/
def pyTrim (s : String) : String :=
  String.mk (pyStrip isPySpace s.toList)

-- ===================== DirectoryScanner =====================

/-- The extension part of os.path.splitext: the suffix that starts at the
last dot preceded somewhere by a non-dot character (a run of leading dots
never starts an extension). -/
def splitextExtAux : List Char → Bool → List Char
  | [], _ => []
  | c :: rest, seen =>
    if c = '.' then
      if seen then
        let e := splitextExtAux rest true
        if e.isEmpty then c :: rest else e
      else splitextExtAux rest false
    else splitextExtAux rest true

/-- os.path.splitext extension of a file name, lowercased as in the scanner
(ext = os.path.splitext(f)[1].lower()). -/
def extLower (name : String) : String :=
  String.mk ((splitextExtAux name.toList false).map Char.toLower)

/-- Python list slicing l[::n] for n at least 1: keep the elements at indices
0, n, 2n, ...  The counter argument is the distance to the next kept
index. -/
def everyNthAux (n : Nat) : List α → Nat → List α
  | [], _ => []
  | x :: xs, 0 => x :: everyNthAux n xs (n - 1)
  | _ :: xs, Nat.succ k => everyNthAux n xs k

/-- Python list slicing l[::n] from index 0. -/
def everyNth (n : Nat) (l : List α) : List α := everyNthAux n l 0

/-- os.path.join of a directory and a file name (POSIX separator; the inputs
of interest carry no trailing separator). -/
def joinPath (d f : String) : String := d ++ "/" ++ f

/-- The filtering loop of get_sorted_dir_files_from_directory: keep the
regular files whose lowercased extension is in the allowed set, each paired
with its full path exactly as the code builds it. -/
def dirFilesFiltered (fs : FileSystem) (directory : String)
    (extensions : List String) : List (String × DirEntry) :=
  (listdir fs directory).filterMap (fun e =>
    if e.isFile ∧ extLower e.name ∈ extensions
    then some (joinPath directory e.name, e) else none)

/-- Lexicographic comparison of character lists by code point, the order
Python uses to compare strings. -/
def charListLe : List Char → List Char → Bool
  | [], _ => true
  | _ :: _, [] => false
  | a :: as, b :: bs =>
    if a.toNat < b.toNat then true
    else if b.toNat < a.toNat then false
    else charListLe as bs

/-- Lexicographic order on path strings by code point. -/
def pathLe (a b : String) : Bool := charListLe a.toList b.toList

/-- Python list.sort on the built path strings, modelled by insertion sort
over the lexicographic order on the path; the directory entries ride along
with their paths. -/
def sortByPath (l : List (String × DirEntry)) : List (String × DirEntry) :=
  l.insertionSort (fun a b => pathLe a.1 b.1 = true)

/-- get_sorted_dir_files_from_directory from utils.py: filter to allowed
regular files, sort by path string, drop the first skip_first_files entries,
then keep every select_every_nth entry starting at index 0. -/
def get_sorted_dir_files_from_directory (fs : FileSystem) (directory : String)
    (skip_first_files : Nat) (select_every_nth : Nat)
    (extensions : List String) : List (String × DirEntry) :=
  let dir_files := sortByPath (dirFilesFiltered fs directory extensions)
  let dir_files :=
    if skip_first_files > 0 then dir_files.drop skip_first_files else dir_files
  if select_every_nth > 1 then everyNth select_every_nth dir_files else dir_files

-- ===================== BatchSplitter (save side) =====================

/-- MultiPathInfo from utils.py: the manifest of parallel arrays produced at
load time and consumed at save time. -/
structure MultiPathInfo where
  frame_counts : List Nat
  directory_names : List String

/-- The slicing loop of SaveImagesMultiPath.save_images_multi: walk the
zipped (frame_count, dir_name) pairs keeping a cursor, and slice
images[cursor : cursor + frame_count] for each pair (Python slices clamp,
List.drop and List.take do the same). -/
def save_splitAux (images : List α) : List (Nat × String) → Nat → List (List α × String)
  | [], _ => []
  | (fc, dn) :: rest, cur =>
    ((images.drop cur).take fc, dn) :: save_splitAux images rest (cur + fc)

/-- The save-side split of SaveImagesMultiPath.save_images_multi
(save_nodes.py lines 75-87): zip frame_counts with directory_names and walk
with a cursor starting at 0. -/
def save_images_multi_split (images : List α) (info : MultiPathInfo) :
    List (List α × String) :=
  save_splitAux images (info.frame_counts.zip info.directory_names) 0

-- ===================== ImageNormalizer =====================

/-- The native float RGB tensor of a decoded file: the 8-bit samples scaled
by 1/255, restricted to the three color channels (utils.py lines 197-210). -/
def nativeRGB (s : SrcImage) : ImageTensor :=
  ⟨s.height, s.width, 3, fun i j c => (s.sample i j c : Rat) / 255⟩

/-- The native mask of a decoded file: the inverted normalized alpha channel
when an alpha band is present (the code assigns 1 minus the last channel
before splitting it off), otherwise an all-zero mask of the same geometry
(utils.py lines 201-212). -/
def nativeMask (s : SrcImage) : MaskTensor :=
  if s.hasAlpha then ⟨s.height, s.width, fun i j => 1 - (s.sample i j 3 : Rat) / 255⟩
  else ⟨s.height, s.width, fun _ _ => 0⟩

/-- Modelled from the spec: comfy.utils.common_upscale is an external resize
capability of the host; the spec fixes only the output geometry of the
resize, so the pixel content is modelled by plain index sampling.  Applied
to one (H, W, C) frame with target width and height. -/
def common_upscale (img : ImageTensor) (tw th : Nat) : ImageTensor :=
  ⟨th, tw, img.channels, fun i j c => img.pix (i * img.height / th) (j * img.width / tw) c⟩

/-- torch.nn.functional.interpolate with mode nearest on one (H, W) mask:
output pixel (i, j) takes input pixel (i * H / th, j * W / tw) with floor
division, so every output value is one of the input values. -/
def interpolateNearest (m : MaskTensor) (th tw : Nat) : MaskTensor :=
  ⟨th, tw, fun i j => m.pix (i * m.height / th) (j * m.width / tw)⟩

/-- The body of the per-file loop of load_images_from_directory (utils.py
lines 179-233): build the native tensor and mask; when size_check is set
and the file geometry differs from the target, resize the image with the
external lanczos kernel and the mask with nearest interpolation. -/
def processFile (size_check : Bool) (tw th : Nat) (s : SrcImage) :
    ImageTensor × MaskTensor :=
  let img := nativeRGB s
  let mask := nativeMask s
  if size_check = true ∧ (s.width ≠ tw ∨ s.height ≠ th) then
    (common_upscale img tw th, interpolateNearest mask th tw)
  else (img, mask)

-- ===================== DirectoryLoader =====================

/-- The selected files of one directory load: the scan of
get_sorted_dir_files_from_directory truncated to image_load_cap entries when
the cap is positive (utils.py lines 160-166). -/
def cappedFiles (fs : FileSystem) (directory : String)
    (image_load_cap skip_first_images select_every_nth : Nat) :
    List (String × DirEntry) :=
  let dir_files := get_sorted_dir_files_from_directory fs directory
    skip_first_images select_every_nth IMG_EXTENSIONS
  if image_load_cap > 0 then dir_files.take image_load_cap else dir_files

/-- The shape condition of torch.cat along dim 0 on (H, W, C) frames: all
frames share the same geometry and channel count. -/
def imagesCatOk : List ImageTensor → Bool
  | [] => true
  | x :: xs =>
    xs.all (fun y => y.height == x.height && y.width == x.width && y.channels == x.channels)

/-- The shape condition of torch.cat along dim 0 on (H, W) masks. -/
def masksCatOk : List MaskTensor → Bool
  | [] => true
  | x :: xs => xs.all (fun y => y.height == x.height && y.width == x.width)

/-- The FileNotFoundError message for a missing directory (the quote
characters that the code puts around the path are omitted from the
model). -/
def dirNotFoundMsg (directory : String) : String :=
  "Directory " ++ directory ++ " cannot be found."

/-- The FileNotFoundError message for a directory whose scan yields zero
files. -/
def noFilesMsg (directory : String) : String :=
  "No files in directory " ++ directory ++ "."

/-- The ValueError message raised when tensors of differing geometry reach
torch.cat inside load_images_from_directory. -/
def differentSizesMsg (directory : String) : String :=
  "Images in directory " ++ directory ++ " have different sizes."

/-- The tuple returned by load_images_from_directory: images, masks, frame
count, target size as (width, height), and the constant False the code
returns in the has_alpha slot. -/
abbrev LoadResult := List ImageTensor × List MaskTensor × Nat × (Nat × Nat) × Bool

/-- load_images_from_directory from utils.py (size_check defaults to true at
every call site in load_nodes.py): validate the directory, scan, reject an
empty scan, truncate to the cap, fix the target geometry from the first
selected file, process every file in order and concatenate.  The
concatenation step models the torch.cat calls: it fails when frames of
differing geometry remain, which the code surfaces as a ValueError. -/
def load_images_from_directory (fs : FileSystem) (directory : String)
    (image_load_cap skip_first_images select_every_nth : Nat)
    (size_check : Bool) : Except String LoadResult :=
  if isdir fs directory = false then .error (dirNotFoundMsg directory)
  else
    let dir_files := get_sorted_dir_files_from_directory fs directory
      skip_first_images select_every_nth IMG_EXTENSIONS
    if dir_files.isEmpty then .error (noFilesMsg directory)
    else
      match cappedFiles fs directory image_load_cap skip_first_images select_every_nth with
      | [] =>
        -- unreachable: a positive cap keeps the nonempty scan nonempty
        .error "torch.cat on an empty list of tensors"
      | f0 :: rest =>
        let target_width := f0.2.img.width
        let target_height := f0.2.img.height
        let processed := (f0 :: rest).map
          (fun e => processFile size_check target_width target_height e.2.img)
        let images := processed.map Prod.fst
        let masks := processed.map Prod.snd
        if imagesCatOk images && masksCatOk masks then
          .ok (images, masks, images.length, (target_width, target_height), false)
        else .error (differentSizesMsg directory)

/-- The image batch of a loader result (empty on error). -/
def loadedImages (r : Except String LoadResult) : List ImageTensor :=
  match r with
  | .ok t => t.1
  | .error _ => []

/-- The mask batch of a loader result (empty on error). -/
def loadedMasks (r : Except String LoadResult) : List MaskTensor :=
  match r with
  | .ok t => t.2.1
  | .error _ => []

/-- The target size of a successful loader result. -/
def loadedSize (r : Except String LoadResult) : Option (Nat × Nat) :=
  match r with
  | .ok t => some t.2.2.2.1
  | .error _ => none

/-- Bool test: every pixel value of mask m inside its bounds occurs among
the in-bounds pixel values of mask orig. -/
def maskValuesFrom (m orig : MaskTensor) : Bool :=
  (List.range m.height).all fun i => (List.range m.width).all fun j =>
    (List.range orig.height).any fun i2 => (List.range orig.width).any fun j2 =>
      decide (m.pix i j = orig.pix i2 j2)

-- ===================== MultiDirectoryAggregator =====================

/-- os.path.basename of full_path.rstrip of slash and backslash characters,
as the load nodes compute the stored directory name. -/
def basenameStripped (s : String) : String :=
  let t := (s.toList.reverse.dropWhile (fun c => c == '/' || c == Char.ofNat 92)).reverse
  String.mk (t.reverse.takeWhile (fun c => !(c == '/'))).reverse

/-- The keyword arguments of a load node call: path_count plus the
directory slots (kwargs.get of directory_i defaults to the empty string for
an unset slot) and the numeric controls. -/
structure LoadConfig where
  path_count : Nat
  directory : Nat → String
  image_load_cap : Nat
  skip_first_images : Nat
  select_every_nth : Nat

/-- The accumulator of the directory loop of
LoadImagesMultiPathPath.load_images_multi. -/
structure AggState where
  all_images : List (List ImageTensor)
  all_masks : List (List MaskTensor)
  total_frame_count : Nat
  frame_counts : List Nat
  directory_names : List String
  target_size : Option (Nat × Nat)
  target_has_alpha : Option Bool

/-- The state before the first loop iteration. -/
def initAggState : AggState := ⟨[], [], 0, [], [], none, none⟩

/-- The channel count of a batch, images.shape[-1] in the code (the batch
produced by the loader is uniform). -/
def batchChannels : List ImageTensor → Nat
  | [] => 0
  | im :: _ => im.channels

/-- The slice images[:, :, :, :3] on a four-channel batch frame. -/
def keepRGB (im : ImageTensor) : ImageTensor := ⟨im.height, im.width, 3, im.pix⟩

/-- One iteration of the directory loop of
LoadImagesMultiPathPath.load_images_multi (load_nodes.py lines 242-297):
skip a blank slot, strip the path, skip a missing directory, load it with
load_images_from_directory where every raised error is caught and the slot
skipped, fix the running target size on the first success, resize the image
batch (and only the image batch) when its size differs from the running
target, drop a spurious fourth channel, and append the results.  A slot
whose stripped path is none (a path of only quote characters) is skipped
here; in Python that corner raises a TypeError inside os.path.isdir. -/
def aggStep (fs : FileSystem) (cfg : LoadConfig) (st : AggState) (i : Nat) : AggState :=
  let directory := cfg.directory i
  if directory = "" ∨ pyTrim directory = "" then st
  else
    match strip_path directory with
    | none => st
    | some full_path =>
      if isdir fs full_path = false then st
      else
        match load_images_from_directory fs full_path cfg.image_load_cap
            cfg.skip_first_images cfg.select_every_nth true with
        | .error _ => st
        | .ok (images, masks, frame_count, size, has_alpha) =>
          let target_size := st.target_size.getD size
          let target_has_alpha := st.target_has_alpha.getD has_alpha
          let images :=
            if size ≠ target_size then
              images.map (fun im => common_upscale im target_size.1 target_size.2)
            else images
          let images :=
            if has_alpha = true ∧ target_has_alpha = false then
              if batchChannels images = 4 then images.map keepRGB else images
            else images
          { all_images := st.all_images ++ [images]
            all_masks := st.all_masks ++ [masks]
            total_frame_count := st.total_frame_count + frame_count
            frame_counts := st.frame_counts ++ [frame_count]
            directory_names := st.directory_names ++ [basenameStripped full_path]
            target_size := some target_size
            target_has_alpha := some target_has_alpha }

/-- torch.cat of the per-directory image batches along dim 0; a geometry
mismatch raises (the code distinguishes the two cat calls only by order, the
model labels the messages for readability). -/
def catImageBatches (batches : List (List ImageTensor)) : Except String (List ImageTensor) :=
  let flat := batches.flatten
  if imagesCatOk flat then .ok flat
  else .error "torch.cat sizes of image tensors must match"

/-- torch.cat of the per-directory mask batches along dim 0. -/
def catMaskBatches (batches : List (List MaskTensor)) : Except String (List MaskTensor) :=
  let flat := batches.flatten
  if masksCatOk flat then .ok flat
  else .error "torch.cat sizes of mask tensors must match"

/-- The output tuple of a load node: combined images, combined masks, total
frame count, manifest. -/
abbrev AggResult := List ImageTensor × List MaskTensor × Nat × MultiPathInfo

/-- LoadImagesMultiPathPath.load_images_multi from load_nodes.py: iterate
the directory slots 1..path_count through aggStep, fail when nothing was
loaded, then concatenate images and masks (the torch.cat calls; a geometry
mismatch there aborts the whole node) and return the combined batches, the
total count and the MultiPathInfo manifest. -/
def load_images_multi (fs : FileSystem) (cfg : LoadConfig) : Except String AggResult :=
  let st := (List.range' 1 cfg.path_count).foldl (aggStep fs cfg) initAggState
  if st.all_images.isEmpty then
    .error "No images could be loaded from any of the specified directories."
  else
    match catImageBatches st.all_images with
    | .error e => .error e
    | .ok combined_images =>
      match catMaskBatches st.all_masks with
      | .error e => .error e
      | .ok combined_masks =>
        .ok (combined_images, combined_masks, st.total_frame_count,
             ⟨st.frame_counts, st.directory_names⟩)

/-- The manifest of a successful load node result. -/
def aggManifest (r : Except String AggResult) : Option (List Nat × List String) :=
  match r with
  | .ok t => some (t.2.2.2.frame_counts, t.2.2.2.directory_names)
  | .error _ => none

-- ===================== ContentFingerprint =====================

/-- A hexadecimal digit character (0-9 then a-f). -/
def hexChar (n : Nat) : Char :=
  if n < 10 then Char.ofNat (48 + n) else Char.ofNat (87 + n)

/-- The two hexadecimal characters of one byte. -/
def byteHex (b : Nat) : List Char := [hexChar (b / 16 % 16), hexChar (b % 16)]

/-- Modelled from the spec: the hashlib.sha256 hexdigest of a byte sequence
is an external cryptographic capability that the spec treats as an ideal
collision-free digest; the model therefore uses an injective executable
encoding (two hex characters per byte, closed by a marker outside the hex
alphabet), which is exactly as collision free as the spec assumes. -/
def sha256hex (bs : List Nat) : List Char :=
  (bs.map byteHex).flatten ++ [Char.ofNat 103]

/-- calculate_file_hash from utils.py: the hex digest of the whole byte
content of one file. -/
def calculate_file_hash (content : List Nat) : List Char := sha256hex content

/-- Modelled from the spec: the running sha256 object of
is_changed_load_images_multi digests the concatenation of its update
chunks; the final m.digest().hex() is modelled as an injective function of
that concatenated stream (the identity on the character stream). -/
def runningDigestHex (input : List Char) : List Char := input

/-- The files one directory contributes to the change-detection hash
(utils.py lines 120-124): a truthy existing directory is scanned with the
skip and stride controls and truncated to image_load_cap entries when the
cap is nonzero; any other directory contributes nothing. -/
def hashSelection (fs : FileSystem) (cap skip stride : Nat) (directory : String) :
    List (String × DirEntry) :=
  if directory ≠ "" ∧ isdir fs directory = true then
    let dir_files := get_sorted_dir_files_from_directory fs directory skip stride IMG_EXTENSIONS
    if cap ≠ 0 then dir_files.take cap else dir_files
  else []

/-- The ordered byte contents of every file fed to the running hash,
directories in configured order and files in scan order. -/
def selectedContents (fs : FileSystem) (dirs : List String) (cap skip stride : Nat) :
    List (List Nat) :=
  (dirs.map (fun d =>
    (hashSelection fs cap skip stride d).map (fun e => e.2.content))).flatten

/-- is_changed_load_images_multi from utils.py: one running hash updated
with the hex digest of every selected file, walking the directories in
configured order and the files of each in scan order; returns the final
digest in hexadecimal. -/
def is_changed_load_images_multi (fs : FileSystem) (dirs : List String)
    (cap skip stride : Nat) : List Char :=
  runningDigestHex
    ((dirs.map (fun d =>
        ((hashSelection fs cap skip stride d).map
          (fun e => calculate_file_hash e.2.content)).flatten)).flatten)

-- ===================== Validation =====================

/-- The result of a validation entry point: Python returns either True or
an error string. -/
inductive ValidationResult
  | ok
  | err (msg : String)
deriving DecidableEq

/-- validate_load_images from utils.py: an existing directory with a
nonempty raw os.listdir listing validates; entries of any kind and any
extension count. -/
def validate_load_images (fs : FileSystem) (directory : String) : ValidationResult :=
  if isdir fs directory = false then .err (dirNotFoundMsg directory)
  else if (listdir fs directory).length = 0 then .err (noFilesMsg directory)
  else .ok

/-- The TypeError that os.path.isdir(None) raises when
validate_load_images is handed the None that strip_path returns for a path
of only quote characters; VALIDATE_INPUTS has no handler, so it propagates
out of the whole call. -/
def pyTypeErrorMsg : String :=
  "TypeError: argument should be a str or an os.PathLike object, not NoneType"

/-- validate_load_images applied to the possibly-None result of strip_path,
exactly as VALIDATE_INPUTS calls it: a None argument raises the TypeError
inside os.path.isdir. -/
def validate_load_images_opt (fs : FileSystem) :
    Option String → Except String ValidationResult
  | none => .error pyTypeErrorMsg
  | some d => .ok (validate_load_images fs d)

/-- Whether the loop body raises on slot i: the slot passes the
truthy-and-nonblank test yet strips to None (a path of only quote
characters). -/
def slotRaises (cfg : LoadConfig) (i : Nat) : Bool :=
  if cfg.directory i = "" ∨ pyTrim (cfg.directory i) = "" then false
  else (strip_path (cfg.directory i)).isNone

/-- Classification of a non-raising slot: it passes the truthy-and-nonblank
test and its stripped path validates as True. -/
def slotValidatesTrue (fs : FileSystem) (cfg : LoadConfig) (i : Nat) : Bool :=
  if cfg.directory i = "" ∨ pyTrim (cfg.directory i) = "" then false
  else
    match strip_path (cfg.directory i) with
    | none => false
    | some p => validate_load_images fs p == ValidationResult.ok

/-- One iteration of the loop of LoadImagesMultiPathPath.VALIDATE_INPUTS
(load_nodes.py lines 332-339): skip a blank slot, strip the path, validate
it (which raises when the stripped path is None) and count a True
result. -/
def validateStep (fs : FileSystem) (cfg : LoadConfig) (acc : Nat) (i : Nat) :
    Except String Nat :=
  let directory := cfg.directory i
  if directory = "" ∨ pyTrim directory = "" then .ok acc
  else
    match validate_load_images_opt fs (strip_path directory) with
    | .error e => .error e
    | .ok r => if r = ValidationResult.ok then .ok (acc + 1) else .ok acc

/-- The slot loop of VALIDATE_INPUTS: an uncaught exception in any
iteration aborts the whole call. -/
def validateLoop (fs : FileSystem) (cfg : LoadConfig) :
    List Nat → Nat → Except String Nat
  | [], acc => .ok acc
  | i :: rest, acc =>
    match validateStep fs cfg acc i with
    | .error e => .error e
    | .ok acc2 => validateLoop fs cfg rest acc2

/-- LoadImagesMultiPathPath.VALIDATE_INPUTS from load_nodes.py: count the
slots that validate over slots 1..path_count and fail when none does; a
TypeError raised by a quote-only slot propagates out instead of
returning. -/
def VALIDATE_INPUTS (fs : FileSystem) (cfg : LoadConfig) :
    Except String ValidationResult :=
  match validateLoop fs cfg (List.range' 1 cfg.path_count) 0 with
  | .error e => .error e
  | .ok valid_dirs =>
    if valid_dirs = 0 then
      .ok (.err "At least one valid directory must be specified.")
    else .ok ValidationResult.ok

-- ===================== Witness data =====================

/-- A 64 by 64 source image with no alpha band and constant samples. -/
def src64 : SrcImage := ⟨64, 64, false, fun _ _ _ => 128⟩

/-- A 32 by 32 source image with no alpha band and constant samples. -/
def src32 : SrcImage := ⟨32, 32, false, fun _ _ _ => 64⟩

/-- A 2 by 2 source image with an alpha band whose alpha row 0 is opaque and
row 1 transparent, so its native mask holds exactly the values 0 and 1. -/
def srcMask2 : SrcImage :=
  ⟨2, 2, true, fun i _ c => if c = 3 then (if i = 0 then 255 else 0) else 100⟩

/-- A 1 by 1 source image with an alpha band of sample value 200. -/
def srcAlpha200 : SrcImage := ⟨1, 1, true, fun _ _ _ => 200⟩

/-- Directory entry of a 64 by 64 first file. -/
def entryA : DirEntry := ⟨"a.png", true, [1, 2], src64⟩

/-- Directory entry of a 32 by 32 second file. -/
def entryB : DirEntry := ⟨"b.png", true, [3, 4], src32⟩

/-- A file system with one directory d holding a 64 by 64 first file and a
32 by 32 second file in sort order. -/
def demoFS4 : FileSystem := [⟨"d", [entryA, entryB]⟩]

/-- A directory entry named as given, a regular png file. -/
def scanEntry (nm : String) : DirEntry := ⟨nm, true, [0], src64⟩

/-- A file system with one directory s of five image files f0.png to f4.png
listed out of order, to exercise the sort. -/
def demoFS8 : FileSystem :=
  [⟨"s", [scanEntry "f3.png", scanEntry "f0.png", scanEntry "f4.png",
          scanEntry "f2.png", scanEntry "f1.png"]⟩]

/-- A file system of two directories of differing geometry: a holds one
64 by 64 file, b holds one 32 by 32 file. -/
def demoFSC2 : FileSystem := [⟨"a", [entryA]⟩, ⟨"b", [entryB]⟩]

/-- A two-slot configuration naming directories a and b. -/
def cfgC2 : LoadConfig :=
  ⟨2, fun i => if i = 1 then "a" else if i = 2 then "b" else "", 0, 0, 1⟩

/-- A file system with an existing empty directory e next to directory a. -/
def demoFSC3 : FileSystem := [⟨"e", []⟩, ⟨"a", [entryA]⟩]

/-- A two-slot configuration naming the empty directory e and then a. -/
def cfgC3 : LoadConfig :=
  ⟨2, fun i => if i = 1 then "e" else if i = 2 then "a" else "", 0, 0, 1⟩

/-- A two-slot configuration naming a nonexistent directory and then a. -/
def cfgC3miss : LoadConfig :=
  ⟨2, fun i => if i = 1 then "missing" else if i = 2 then "a" else "", 0, 0, 1⟩

/-- A regular file with a non-image extension. -/
def txtEntry : DirEntry := ⟨"notes.txt", true, [5], src64⟩

/-- A file system whose only directory t holds only a non-image file. -/
def demoFSC9 : FileSystem := [⟨"t", [txtEntry]⟩]

/-- A one-slot configuration naming directory t. -/
def cfgC9 : LoadConfig := ⟨1, fun i => if i = 1 then "t" else "", 0, 0, 1⟩

/-- A two-slot configuration whose first slot is a single double-quote
character (nonblank, yet strip_path returns none) and whose second slot
names the valid directory t. -/
def cfgC9raise : LoadConfig :=
  ⟨2, fun i => if i = 1 then "\"" else if i = 2 then "t" else "", 0, 0, 1⟩

/-- A regular image file entry with the given name and byte content. -/
def hashEntry (nm : String) (c : List Nat) : DirEntry := ⟨nm, true, c, src64⟩

/-- A file system with one directory a holding the file x.png of content
[1, 2]. -/
def demoFSH1 : FileSystem := [⟨"a", [hashEntry "x.png" [1, 2]]⟩]

/-- A file system with one directory b holding y.png of content [1, 2] and
z.png of content [9]; with a cap of one file its selected contents match
demoFSH1 although every name differs. -/
def demoFSH2 : FileSystem :=
  [⟨"b", [hashEntry "y.png" [1, 2], hashEntry "z.png" [9]]⟩]

/-- A file system of two distinct directories p and q whose single files
have byte-identical contents. -/
def demoFSH3 : FileSystem :=
  [⟨"p", [hashEntry "x.png" [7]]⟩, ⟨"q", [hashEntry "y.png" [7]]⟩]

/-- A concrete one-pixel frame marked with a number, for witnesses. -/
def demoFrame (n : Nat) : ImageTensor := ⟨1, 1, 3, fun _ _ _ => (n : Rat)⟩

/-- A concrete batch of ten distinct frames. -/
def demoBatch : List ImageTensor := (List.range 10).map demoFrame

/-- A concrete manifest with frame counts [3, 5, 2]. -/
def demoInfo : MultiPathInfo := ⟨[3, 5, 2], ["a", "b", "c"]⟩

-- ===================== Lemmas and theorems =====================

theorem save_splitAux_join (l : List α) :
    ∀ (pairs : List (Nat × String)) (cur : Nat),
      cur + (pairs.map Prod.fst).sum = l.length →
      ((save_splitAux l pairs cur).map Prod.fst).flatten = l.drop cur := by
  intro pairs
  induction pairs with
  | nil =>
    intro cur h
    simp only [save_splitAux, List.map_nil, List.flatten_nil]
    have hc : cur = l.length := by simpa using h
    rw [hc, List.drop_length]
  | cons p rest ih =>
    intro cur h
    obtain ⟨fc, dn⟩ := p
    simp only [save_splitAux, List.map_cons, List.flatten_cons]
    rw [ih (cur + fc) (by simpa [Nat.add_assoc] using h)]
    have hdd : l.drop (cur + fc) = (l.drop cur).drop fc := by
      rw [List.drop_drop, Nat.add_comm]
    rw [hdd]
    exact List.take_append_drop fc (l.drop cur)

theorem save_splitAux_lengths (l : List α) :
    ∀ (pairs : List (Nat × String)) (cur : Nat),
      cur + (pairs.map Prod.fst).sum ≤ l.length →
      (save_splitAux l pairs cur).map (fun p => p.1.length) = pairs.map Prod.fst := by
  intro pairs
  induction pairs with
  | nil => intro cur _; simp [save_splitAux]
  | cons p rest ih =>
    intro cur h
    obtain ⟨fc, dn⟩ := p
    simp only [save_splitAux, List.map_cons]
    have h2 : cur + (fc + (rest.map Prod.fst).sum) ≤ l.length := by
      simpa using h
    have h1 : ((l.drop cur).take fc).length = fc := by
      rw [List.length_take, List.length_drop]; omega
    rw [h1, ih (cur + fc) (by omega)]

theorem save_splitAux_names (l : List α) :
    ∀ (pairs : List (Nat × String)) (cur : Nat),
      (save_splitAux l pairs cur).map Prod.snd = pairs.map Prod.snd := by
  intro pairs
  induction pairs with
  | nil => intro cur; simp [save_splitAux]
  | cons p rest ih =>
    intro cur
    obtain ⟨fc, dn⟩ := p
    simp only [save_splitAux, List.map_cons]
    rw [ih]

/-- Claim C1: for a CombinedBatch and a Manifest produced together (parallel
frame_counts and directory_names arrays whose counts sum to the batch
length), the save-side split walks frame_counts with a cursor from 0, takes
the contiguous slice of each count paired with the corresponding directory
name, and the in-order concatenation of the sub-batches is the original
batch; each sub-batch has exactly its recorded frame count. -/
theorem save_split_roundTrip (images : List ImageTensor) (info : MultiPathInfo)
    (hlen : info.frame_counts.length = info.directory_names.length)
    (hsum : info.frame_counts.sum = images.length) :
    ((save_images_multi_split images info).map Prod.fst).flatten = images ∧
    (save_images_multi_split images info).map (fun p => p.1.length) = info.frame_counts ∧
    (save_images_multi_split images info).map Prod.snd = info.directory_names := by
  have hfst : (info.frame_counts.zip info.directory_names).map Prod.fst = info.frame_counts :=
    List.map_fst_zip _ _ (le_of_eq hlen)
  have hsnd : (info.frame_counts.zip info.directory_names).map Prod.snd = info.directory_names :=
    List.map_snd_zip _ _ (le_of_eq hlen.symm)
  refine ⟨?_, ?_, ?_⟩
  · have := save_splitAux_join images (info.frame_counts.zip info.directory_names) 0
      (by rw [hfst]; simpa using hsum)
    simpa [save_images_multi_split] using this
  · have := save_splitAux_lengths images (info.frame_counts.zip info.directory_names) 0
      (by rw [hfst]; simp [hsum])
    rw [save_images_multi_split, this, hfst]
  · rw [save_images_multi_split, save_splitAux_names, hsnd]

/-- Witness for save_split_roundTrip at frame counts [3, 5, 2], names
[a, b, c] and a batch of ten frames. -/
theorem save_split_roundTrip_witness :
    (demoInfo.frame_counts.length = demoInfo.directory_names.length ∧
     demoInfo.frame_counts.sum = demoBatch.length) ∧
    (((save_images_multi_split demoBatch demoInfo).map Prod.fst).flatten = demoBatch ∧
     (save_images_multi_split demoBatch demoInfo).map (fun p => p.1.length) = demoInfo.frame_counts ∧
     (save_images_multi_split demoBatch demoInfo).map Prod.snd = demoInfo.directory_names) :=
  ⟨⟨by decide, by decide⟩, save_split_roundTrip demoBatch demoInfo (by decide) (by decide)⟩

theorem nativeMask_height (s : SrcImage) : (nativeMask s).height = s.height := by
  unfold nativeMask; split <;> rfl

theorem nativeMask_width (s : SrcImage) : (nativeMask s).width = s.width := by
  unfold nativeMask; split <;> rfl

theorem processFile_geom_true (tw th : Nat) (s : SrcImage) :
    (processFile true tw th s).1.height = th ∧ (processFile true tw th s).1.width = tw ∧
    (processFile true tw th s).1.channels = 3 ∧
    (processFile true tw th s).2.height = th ∧ (processFile true tw th s).2.width = tw := by
  by_cases hw : s.width = tw <;> by_cases hh : s.height = th <;>
    simp [processFile, hw, hh, common_upscale, interpolateNearest, nativeRGB,
      nativeMask_height, nativeMask_width]

theorem cappedFiles_scan_ne_nil {fs : FileSystem} {directory : String}
    {cap skip stride : Nat} (h : cappedFiles fs directory cap skip stride ≠ []) :
    (get_sorted_dir_files_from_directory fs directory skip stride IMG_EXTENSIONS).isEmpty
      = false := by
  unfold cappedFiles at h
  cases hscan : get_sorted_dir_files_from_directory fs directory skip stride IMG_EXTENSIONS with
  | nil => rw [hscan] at h; split at h <;> simp_all
  | cons a l => simp

theorem imagesCatOk_uniform (th tw : Nat) (l : List ImageTensor)
    (h : ∀ im ∈ l, im.height = th ∧ im.width = tw ∧ im.channels = 3) :
    imagesCatOk l = true := by
  cases l with
  | nil => rfl
  | cons x xs =>
    unfold imagesCatOk
    rw [List.all_eq_true]
    intro y hy
    obtain ⟨h1, h2, h3⟩ := h y (List.mem_cons_of_mem x hy)
    obtain ⟨g1, g2, g3⟩ := h x (List.mem_cons_self x xs)
    simp [h1, h2, h3, g1, g2, g3]

theorem masksCatOk_uniform (th tw : Nat) (l : List MaskTensor)
    (h : ∀ m ∈ l, m.height = th ∧ m.width = tw) :
    masksCatOk l = true := by
  cases l with
  | nil => rfl
  | cons x xs =>
    unfold masksCatOk
    rw [List.all_eq_true]
    intro y hy
    obtain ⟨h1, h2⟩ := h y (List.mem_cons_of_mem x hy)
    obtain ⟨g1, g2⟩ := h x (List.mem_cons_self x xs)
    simp [h1, h2, g1, g2]

theorem load_true_eq (fs : FileSystem) (directory : String)
    (cap skip stride : Nat) (f0 : String × DirEntry) (rest : List (String × DirEntry))
    (hdir : isdir fs directory = true)
    (hsel : cappedFiles fs directory cap skip stride = f0 :: rest) :
    load_images_from_directory fs directory cap skip stride true =
      .ok (((f0 :: rest).map
              (fun e => processFile true f0.2.img.width f0.2.img.height e.2.img)).map Prod.fst,
           ((f0 :: rest).map
              (fun e => processFile true f0.2.img.width f0.2.img.height e.2.img)).map Prod.snd,
           (((f0 :: rest).map
              (fun e => processFile true f0.2.img.width f0.2.img.height e.2.img)).map
              Prod.fst).length,
           (f0.2.img.width, f0.2.img.height), false) := by
  have hscan := cappedFiles_scan_ne_nil (hsel ▸ List.cons_ne_nil f0 rest)
  have himg : imagesCatOk (((f0 :: rest).map
      (fun e => processFile true f0.2.img.width f0.2.img.height e.2.img)).map Prod.fst)
      = true := by
    apply imagesCatOk_uniform f0.2.img.height f0.2.img.width
    intro im him
    simp only [List.map_map, List.mem_map, Function.comp] at him
    obtain ⟨e, _, rfl⟩ := him
    have h := processFile_geom_true f0.2.img.width f0.2.img.height e.2.img
    exact ⟨h.1, h.2.1, h.2.2.1⟩
  have hmask : masksCatOk (((f0 :: rest).map
      (fun e => processFile true f0.2.img.width f0.2.img.height e.2.img)).map Prod.snd)
      = true := by
    apply masksCatOk_uniform f0.2.img.height f0.2.img.width
    intro m hm
    simp only [List.map_map, List.mem_map, Function.comp] at hm
    obtain ⟨e, _, rfl⟩ := hm
    have h := processFile_geom_true f0.2.img.width f0.2.img.height e.2.img
    exact ⟨h.2.2.2.1, h.2.2.2.2⟩
  unfold load_images_from_directory
  rw [hdir]
  simp only [Bool.true_eq_false, if_false, hscan, hsel, himg, hmask]
  simp

/-- Claim C4: under the strict-sizing policy (size_check true, the default
at every call site), the target geometry of a directory load is the size of
the first selected file in sort order, and every image of the loaded batch
has that geometry. -/
theorem strict_sizing_target (fs : FileSystem) (directory : String)
    (cap skip stride : Nat) (f0 : String × DirEntry) (rest : List (String × DirEntry))
    (hdir : isdir fs directory = true)
    (hsel : cappedFiles fs directory cap skip stride = f0 :: rest) :
    loadedSize (load_images_from_directory fs directory cap skip stride true)
      = some (f0.2.img.width, f0.2.img.height) ∧
    (loadedImages (load_images_from_directory fs directory cap skip stride true)).all
      (fun im => im.width == f0.2.img.width && im.height == f0.2.img.height
                 && im.channels == 3) = true := by
  rw [load_true_eq fs directory cap skip stride f0 rest hdir hsel]
  refine ⟨rfl, ?_⟩
  rw [List.all_eq_true]
  intro im him
  simp only [loadedImages, List.map_map, List.mem_map, Function.comp] at him
  obtain ⟨e, _, rfl⟩ := him
  have h := processFile_geom_true f0.2.img.width f0.2.img.height e.2.img
  simp [h.1, h.2.1, h.2.2.1]

/-- Witness for strict_sizing_target: a directory whose first file is 64 by
64 and whose second file is 32 by 32 loads as two 64 by 64 images. -/
theorem strict_sizing_target_witness :
    (isdir demoFS4 "d" = true ∧
     cappedFiles demoFS4 "d" 0 0 1
       = [(joinPath "d" "a.png", entryA), (joinPath "d" "b.png", entryB)]) ∧
    (loadedSize (load_images_from_directory demoFS4 "d" 0 0 1 true) = some (64, 64) ∧
     (loadedImages (load_images_from_directory demoFS4 "d" 0 0 1 true)).all
       (fun im => im.width == 64 && im.height == 64 && im.channels == 3) = true) :=
  ⟨⟨rfl, rfl⟩,
   strict_sizing_target demoFS4 "d" 0 0 1 (joinPath "d" "a.png", entryA)
     [(joinPath "d" "b.png", entryB)] rfl rfl⟩

theorem nearest_index_lt {i n t : Nat} (hi : i < t) (hn : 0 < n) : i * n / t < n := by
  have ht : 0 < t := by omega
  rw [Nat.div_lt_iff_lt_mul ht]
  calc i * n < t * n := by exact Nat.mul_lt_mul_of_pos_right hi hn
    _ = n * t := Nat.mul_comm _ _

/-- Claim C5: when a file geometry differs from the directory target under
strict sizing, the per-file step resamples its mask with nearest
interpolation (the image goes through the external filtered kernel
instead), so the resized mask holds only values of the native mask. -/
theorem mask_nearest_value_set (tw th : Nat) (s : SrcImage)
    (hw : 0 < s.width) (hh : 0 < s.height)
    (hne : s.width ≠ tw ∨ s.height ≠ th) :
    (processFile true tw th s).2 = interpolateNearest (nativeMask s) th tw ∧
    maskValuesFrom (processFile true tw th s).2 (nativeMask s) = true := by
  have hpf : (processFile true tw th s).2 = interpolateNearest (nativeMask s) th tw := by
    unfold processFile
    rw [if_pos ⟨rfl, hne⟩]
  refine ⟨hpf, ?_⟩
  rw [hpf]
  unfold maskValuesFrom interpolateNearest
  simp only [List.all_eq_true, List.any_eq_true, List.mem_range, decide_eq_true_eq,
    nativeMask_height, nativeMask_width]
  intro i hi j hj
  exact ⟨i * s.height / th, nearest_index_lt hi hh,
         j * s.width / tw, nearest_index_lt hj hw, rfl⟩

/-- Witness for mask_nearest_value_set: a 2 by 2 alpha image with mask
values 0 and 1, resized to a 4 by 4 target; the resized mask keeps to the
set of native values. -/
theorem mask_nearest_value_set_witness :
    (0 < srcMask2.width ∧ 0 < srcMask2.height ∧ (srcMask2.width ≠ 4 ∨ srcMask2.height ≠ 4)) ∧
    ((processFile true 4 4 srcMask2).2 = interpolateNearest (nativeMask srcMask2) 4 4 ∧
     maskValuesFrom (processFile true 4 4 srcMask2).2 (nativeMask srcMask2) = true) :=
  ⟨⟨by decide, by decide, Or.inl (by decide)⟩,
   mask_nearest_value_set 4 4 srcMask2 (by decide) (by decide) (Or.inl (by decide))⟩

/-- Claim C6: for a decoded file with an alpha channel, the stored native
mask value at every pixel equals one minus the 8-bit alpha sample divided
by 255. -/
theorem alpha_mask_convention (s : SrcImage) (h : s.hasAlpha = true) (i j : Nat) :
    (nativeMask s).pix i j = 1 - (s.sample i j 3 : Rat) / 255 := by
  simp [nativeMask, h]

/-- Witness for alpha_mask_convention: an alpha sample of 200 out of 255
yields the mask value 1 - 200 / 255. -/
theorem alpha_mask_convention_witness :
    srcAlpha200.hasAlpha = true ∧
    (nativeMask srcAlpha200).pix 0 0 = 1 - (200 : Rat) / 255 :=
  ⟨rfl, alpha_mask_convention srcAlpha200 rfl 0 0⟩

theorem charListLe_total : ∀ a b : List Char, charListLe a b = true ∨ charListLe b a = true := by
  intro a
  induction a with
  | nil => intro b; left; rfl
  | cons x xs ih =>
    intro b
    cases b with
    | nil => right; rfl
    | cons y ys =>
      by_cases h1 : x.toNat < y.toNat
      · left; simp [charListLe, h1]
      · by_cases h2 : y.toNat < x.toNat
        · right; simp [charListLe, h1, h2]
        · rcases ih ys with h | h
          · left; simp [charListLe, h1, h2, h]
          · right; simp [charListLe, h1, h2, h]

theorem charListLe_trans : ∀ a b c : List Char, charListLe a b = true →
    charListLe b c = true → charListLe a c = true := by
  intro a
  induction a with
  | nil => intro b c _ _; rfl
  | cons x xs ih =>
    intro b c hab hbc
    cases b with
    | nil => simp [charListLe] at hab
    | cons y ys =>
      cases c with
      | nil => simp [charListLe] at hbc
      | cons z zs =>
        have hab2 : x.toNat < y.toNat ∨ (x.toNat = y.toNat ∧ charListLe xs ys = true) := by
          by_cases h1 : x.toNat < y.toNat
          · exact Or.inl h1
          · by_cases h2 : y.toNat < x.toNat
            · simp [charListLe, h1, h2] at hab
            · exact Or.inr ⟨by omega, by simpa [charListLe, h1, h2] using hab⟩
        have hbc2 : y.toNat < z.toNat ∨ (y.toNat = z.toNat ∧ charListLe ys zs = true) := by
          by_cases h1 : y.toNat < z.toNat
          · exact Or.inl h1
          · by_cases h2 : z.toNat < y.toNat
            · simp [charListLe, h1, h2] at hbc
            · exact Or.inr ⟨by omega, by simpa [charListLe, h1, h2] using hbc⟩
        by_cases g1 : x.toNat < z.toNat
        · simp [charListLe, g1]
        · have g2 : ¬ z.toNat < x.toNat := by
            rcases hab2 with h | ⟨h, _⟩ <;> rcases hbc2 with g | ⟨g, _⟩ <;> omega
          rcases hab2 with h | ⟨h, htail⟩
          · rcases hbc2 with g | ⟨g, _⟩ <;> omega
          · rcases hbc2 with g | ⟨g, gtail⟩
            · omega
            · simpa [charListLe, g1, g2] using ih ys zs htail gtail

theorem everyNthAux_getElem (n : Nat) (hn : 0 < n) :
    ∀ (l : List α) (k i : Nat), (everyNthAux n l k)[i]? = l[k + i * n]? := by
  intro l
  induction l with
  | nil => intro k i; cases k <;> simp [everyNthAux]
  | cons x xs ih =>
    intro k i
    cases k with
    | zero =>
      cases i with
      | zero => simp [everyNthAux]
      | succ m =>
        simp only [everyNthAux]
        rw [List.getElem?_cons_succ, ih (n - 1) m]
        have harith : 0 + (m + 1) * n = ((n - 1) + m * n) + 1 := by
          rw [Nat.succ_mul]; omega
        rw [harith, List.getElem?_cons_succ]
    | succ j =>
      simp only [everyNthAux]
      rw [ih j i]
      have harith : (j + 1) + i * n = (j + i * n) + 1 := by omega
      rw [harith, List.getElem?_cons_succ]

/-- Claim C8: the scan keeps the regular files with an allowed lowercased
extension, sorts the kept paths lexicographically by their string
representation, drops the first skip entries, then keeps every stride-th
entry of the remainder from index 0: the sorted list is a permutation of
the filtered listing, pairwise in lexicographic order, entry i of the scan
is entry skip + i * stride of the sorted list, and on a directory of five
files the scan with skip 1 and stride 2 yields files f1 and f3. -/
theorem scan_skip_stride (fs : FileSystem) (directory : String)
    (skip stride : Nat) (extensions : List String) (hs : 1 ≤ stride) :
    (sortByPath (dirFilesFiltered fs directory extensions)).Perm
      (dirFilesFiltered fs directory extensions) ∧
    List.Sorted (fun a b => pathLe a.1 b.1 = true)
      (sortByPath (dirFilesFiltered fs directory extensions)) ∧
    (∀ i : Nat,
      (get_sorted_dir_files_from_directory fs directory skip stride extensions)[i]? =
      (sortByPath (dirFilesFiltered fs directory extensions))[skip + i * stride]?) ∧
    get_sorted_dir_files_from_directory demoFS8 "s" 1 2 IMG_EXTENSIONS =
      [(joinPath "s" "f1.png", scanEntry "f1.png"),
       (joinPath "s" "f3.png", scanEntry "f3.png")] := by
  refine ⟨List.perm_insertionSort _ _, ?_, ?_, rfl⟩
  · haveI htot : IsTotal (String × DirEntry) (fun a b => pathLe a.1 b.1 = true) :=
      ⟨fun a b => charListLe_total a.1.toList b.1.toList⟩
    haveI htr : IsTrans (String × DirEntry) (fun a b => pathLe a.1 b.1 = true) :=
      ⟨fun a b c => charListLe_trans a.1.toList b.1.toList c.1.toList⟩
    exact List.sorted_insertionSort _ _
  · intro i
    have hstridePos : 0 < stride := hs
    unfold get_sorted_dir_files_from_directory
    by_cases hskip : skip > 0 <;> by_cases hstr : stride > 1
    · simp only [hskip, hstr, if_true]
      rw [everyNth, everyNthAux_getElem stride hstridePos, List.getElem?_drop]
      have : skip + (0 + i * stride) = skip + i * stride := by omega
      rw [this]
    · have h1 : stride = 1 := by omega
      simp only [hskip, hstr, if_true, if_false]
      rw [List.getElem?_drop, h1, Nat.mul_one]
    · have h0 : skip = 0 := by omega
      simp only [hskip, hstr, if_true, if_false]
      rw [everyNth, everyNthAux_getElem stride hstridePos, h0]
    · have h0 : skip = 0 := by omega
      have h1 : stride = 1 := by omega
      simp only [hskip, hstr, if_false]
      rw [h0, h1, Nat.mul_one, Nat.zero_add]

/-- Witness for scan_skip_stride at the five-file directory with skip 1 and
stride 2. -/
theorem scan_skip_stride_witness :
    1 ≤ 2 ∧
    ((sortByPath (dirFilesFiltered demoFS8 "s" IMG_EXTENSIONS)).Perm
       (dirFilesFiltered demoFS8 "s" IMG_EXTENSIONS) ∧
     List.Sorted (fun a b => pathLe a.1 b.1 = true)
       (sortByPath (dirFilesFiltered demoFS8 "s" IMG_EXTENSIONS)) ∧
     (∀ i : Nat,
       (get_sorted_dir_files_from_directory demoFS8 "s" 1 2 IMG_EXTENSIONS)[i]? =
       (sortByPath (dirFilesFiltered demoFS8 "s" IMG_EXTENSIONS))[1 + i * 2]?) ∧
     get_sorted_dir_files_from_directory demoFS8 "s" 1 2 IMG_EXTENSIONS =
       [(joinPath "s" "f1.png", scanEntry "f1.png"),
        (joinPath "s" "f3.png", scanEntry "f3.png")]) :=
  ⟨by decide, scan_skip_stride demoFS8 "s" 1 2 IMG_EXTENSIONS (by decide)⟩

/-- Claim C2 (code bug): in the multi-directory aggregation only the image
tensors are resampled to the running target; the mask tensors keep their
per-directory geometry, so for two directories of differing geometry the
mask concatenation fails and the node aborts, while the image batches
concatenate fine.  Evaluated at a 64 by 64 directory followed by a 32 by 32
directory. -/
theorem masks_not_resized_bug :
    load_images_multi demoFSC2 cfgC2 = .error "torch.cat sizes of mask tensors must match" ∧
    catImageBatches
        ((List.range' 1 cfgC2.path_count).foldl (aggStep demoFSC2 cfgC2) initAggState).all_images
      = .ok (((List.range' 1 cfgC2.path_count).foldl
          (aggStep demoFSC2 cfgC2) initAggState).all_images).flatten :=
  ⟨rfl, rfl⟩

theorem strip_path_none_of_blank {d : String} (h : pyTrim d = "") : strip_path d = none := by
  have hl : pyStrip isPySpace d.toList = [] := by
    have h2 := congrArg String.data h
    simpa [pyTrim] using h2
  unfold strip_path
  rw [hl]
  rfl

theorem load_error_missing_dir (fs : FileSystem) (d : String)
    (cap skip stride : Nat) (sc : Bool) (hdir : isdir fs d = false) :
    load_images_from_directory fs d cap skip stride sc = .error (dirNotFoundMsg d) := by
  unfold load_images_from_directory
  rw [hdir]
  rfl

theorem load_error_empty_scan (fs : FileSystem) (d : String)
    (cap skip stride : Nat) (sc : Bool) (hdir : isdir fs d = true)
    (hscan : get_sorted_dir_files_from_directory fs d skip stride IMG_EXTENSIONS = []) :
    load_images_from_directory fs d cap skip stride sc = .error (noFilesMsg d) := by
  unfold load_images_from_directory
  rw [hdir, hscan]
  simp

theorem noFilesMsg_ne_dirNotFoundMsg (d : String) : noFilesMsg d ≠ dirNotFoundMsg d := by
  intro h
  have hlen := congrArg String.length h
  simp only [noFilesMsg, dirNotFoundMsg, String.length_append] at hlen
  have e1 : ("No files in directory " : String).length = 22 := by decide
  have e2 : ("." : String).length = 1 := by decide
  have e3 : ("Directory " : String).length = 10 := by decide
  have e4 : (" cannot be found." : String).length = 17 := by decide
  omega

theorem aggStep_not_blank {cfg : LoadConfig} {i : Nat} {fp : String}
    (hstrip : strip_path (cfg.directory i) = some fp) :
    ¬ (cfg.directory i = "" ∨ pyTrim (cfg.directory i) = "") := by
  rintro (h | h)
  · rw [h] at hstrip
    simp [strip_path, pyStrip] at hstrip
  · rw [strip_path_none_of_blank h] at hstrip
    exact Option.noConfusion hstrip

theorem aggStep_skip_of_load_error (fs : FileSystem) (cfg : LoadConfig)
    (st : AggState) (i : Nat) (fp : String) (e : String)
    (hstrip : strip_path (cfg.directory i) = some fp)
    (hdir : isdir fs fp = true)
    (hload : load_images_from_directory fs fp cfg.image_load_cap
      cfg.skip_first_images cfg.select_every_nth true = .error e) :
    aggStep fs cfg st i = st := by
  unfold aggStep
  rw [if_neg (aggStep_not_blank hstrip), hstrip]
  simp [hdir, hload]

theorem aggStep_skip_missing_dir (fs : FileSystem) (cfg : LoadConfig)
    (st : AggState) (i : Nat) (fp : String)
    (hstrip : strip_path (cfg.directory i) = some fp)
    (hdir : isdir fs fp = false) :
    aggStep fs cfg st i = st := by
  unfold aggStep
  rw [if_neg (aggStep_not_blank hstrip), hstrip]
  simp [hdir]

/-- Counterexample to claim C3: directory e exists and scans to zero files,
yet the aggregation surfaces no hard error: the run succeeds and skips e
exactly the way a run with a nonexistent first slot skips that slot, with
identical manifests. -/
theorem empty_dir_tolerated_counterexample :
    isdir demoFSC3 "e" = true ∧
    get_sorted_dir_files_from_directory demoFSC3 "e" 0 1 IMG_EXTENSIONS = [] ∧
    aggManifest (load_images_multi demoFSC3 cfgC3) = some ([1], ["a"]) ∧
    aggManifest (load_images_multi demoFSC3 cfgC3miss) = some ([1], ["a"]) :=
  ⟨rfl, rfl, rfl, rfl⟩

/-- Claim C3 amended: the per-directory loader raises a data error for an
existing directory that scans to zero files, with a message distinct from
the missing-directory message; but the aggregation loop catches every
loader error and skips such a directory exactly as it skips a missing
path, so the aggregation itself surfaces no hard error for it. -/
theorem empty_dir_error_caught (fs : FileSystem) (d : String)
    (cap skip stride : Nat) (sc : Bool) (cfg : LoadConfig) (st : AggState)
    (i : Nat) (fp : String) :
    (isdir fs d = true →
      get_sorted_dir_files_from_directory fs d skip stride IMG_EXTENSIONS = [] →
      load_images_from_directory fs d cap skip stride sc = .error (noFilesMsg d)) ∧
    (isdir fs d = false →
      load_images_from_directory fs d cap skip stride sc = .error (dirNotFoundMsg d)) ∧
    noFilesMsg d ≠ dirNotFoundMsg d ∧
    (strip_path (cfg.directory i) = some fp → isdir fs fp = true →
      get_sorted_dir_files_from_directory fs fp cfg.skip_first_images
        cfg.select_every_nth IMG_EXTENSIONS = [] →
      aggStep fs cfg st i = st) ∧
    (strip_path (cfg.directory i) = some fp → isdir fs fp = false →
      aggStep fs cfg st i = st) := by
  refine ⟨fun h1 h2 => load_error_empty_scan fs d cap skip stride sc h1 h2,
          fun h1 => load_error_missing_dir fs d cap skip stride sc h1,
          noFilesMsg_ne_dirNotFoundMsg d,
          fun h1 h2 h3 => ?_,
          fun h1 h2 => aggStep_skip_missing_dir fs cfg st i fp h1 h2⟩
  exact aggStep_skip_of_load_error fs cfg st i fp (noFilesMsg fp) h1 h2
    (load_error_empty_scan fs fp cfg.image_load_cap cfg.skip_first_images
      cfg.select_every_nth true h2 h3)

/-- Witness for empty_dir_error_caught at the concrete file system with the
existing empty directory e and the nonexistent directory named missing. -/
theorem empty_dir_error_caught_witness :
    (isdir demoFSC3 "e" = true ∧
     get_sorted_dir_files_from_directory demoFSC3 "e" 0 1 IMG_EXTENSIONS = [] ∧
     isdir demoFSC3 "missing" = false ∧
     strip_path (cfgC3.directory 1) = some "e" ∧
     strip_path (cfgC3miss.directory 1) = some "missing") ∧
    (load_images_from_directory demoFSC3 "e" 0 0 1 true = .error (noFilesMsg "e") ∧
     load_images_from_directory demoFSC3 "missing" 0 0 1 true
       = .error (dirNotFoundMsg "missing") ∧
     noFilesMsg "e" ≠ dirNotFoundMsg "e" ∧
     aggStep demoFSC3 cfgC3 initAggState 1 = initAggState ∧
     aggStep demoFSC3 cfgC3miss initAggState 1 = initAggState) := by
  have T1 := empty_dir_error_caught demoFSC3 "e" 0 0 1 true cfgC3 initAggState 1 "e"
  have T2 := empty_dir_error_caught demoFSC3 "missing" 0 0 1 true cfgC3miss initAggState 1 "missing"
  exact ⟨⟨rfl, rfl, rfl, rfl, rfl⟩,
    ⟨T1.1 rfl rfl, T2.2.1 rfl, T1.2.2.1,
     T1.2.2.2.1 rfl rfl rfl, T2.2.2.2.2 rfl rfl⟩⟩

/-- Counterexample to claim C9: the only configured directory exists and
holds only a file with a non-image extension, so no configured directory
contains a file matching the allowed image extensions, yet VALIDATE_INPUTS
returns true because validate_load_images only tests that the raw listing
is nonempty. -/
theorem validate_counterexample :
    VALIDATE_INPUTS demoFSC9 cfgC9 = .ok ValidationResult.ok ∧
    dirFilesFiltered demoFSC9 "t" IMG_EXTENSIONS = [] :=
  ⟨rfl, rfl⟩

theorem validate_ok_iff (fs : FileSystem) (p : String) :
    validate_load_images fs p = ValidationResult.ok ↔
    (isdir fs p = true ∧ (listdir fs p).length ≠ 0) := by
  unfold validate_load_images
  by_cases hd : isdir fs p = false
  · rw [if_pos hd]
    simp [hd]
  · rw [if_neg hd]
    have hd2 : isdir fs p = true := by simpa using hd
    by_cases hl : (listdir fs p).length = 0
    · rw [if_pos hl]; simp [hl]
    · rw [if_neg hl]; simp [hd2, hl]

theorem slotValidatesTrue_iff (fs : FileSystem) (cfg : LoadConfig) (i : Nat) :
    slotValidatesTrue fs cfg i = true ↔
    ∃ p, cfg.directory i ≠ "" ∧ pyTrim (cfg.directory i) ≠ "" ∧
      strip_path (cfg.directory i) = some p ∧
      isdir fs p = true ∧ (listdir fs p).length ≠ 0 := by
  unfold slotValidatesTrue
  by_cases hblank : cfg.directory i = "" ∨ pyTrim (cfg.directory i) = ""
  · rw [if_pos hblank]
    simp only [Bool.false_eq_true, false_iff]
    rintro ⟨p, h1, h2, _⟩
    rcases hblank with h | h
    · exact h1 h
    · exact h2 h
  · rw [if_neg hblank]
    push_neg at hblank
    cases hsp : strip_path (cfg.directory i) with
    | none =>
      simp only [Bool.false_eq_true, false_iff]
      rintro ⟨p, _, _, h3, _⟩
      exact Option.noConfusion h3
    | some p =>
      show (validate_load_images fs p == ValidationResult.ok) = true ↔ _
      constructor
      · intro h
        have hv : validate_load_images fs p = ValidationResult.ok := by
          simpa using h
        obtain ⟨hd, hl⟩ := (validate_ok_iff fs p).mp hv
        exact ⟨p, hblank.1, hblank.2, rfl, hd, hl⟩
      · rintro ⟨q, h1, h2, h3, h4, h5⟩
        have hq : q = p := (Option.some.inj h3).symm
        subst hq
        have hv := (validate_ok_iff fs q).mpr ⟨h4, h5⟩
        rw [hv]
        rfl

theorem validateStep_error_of_raise (fs : FileSystem) (cfg : LoadConfig)
    (acc i : Nat) (h : slotRaises cfg i = true) :
    validateStep fs cfg acc i = .error pyTypeErrorMsg := by
  unfold slotRaises at h
  by_cases hblank : cfg.directory i = "" ∨ pyTrim (cfg.directory i) = ""
  · rw [if_pos hblank] at h
    exact absurd h (by simp)
  · rw [if_neg hblank] at h
    have hnone : strip_path (cfg.directory i) = none := Option.isNone_iff_eq_none.mp h
    unfold validateStep
    rw [if_neg hblank, hnone]
    rfl

theorem validateStep_eq_of_not_raise (fs : FileSystem) (cfg : LoadConfig)
    (acc i : Nat) (h : slotRaises cfg i = false) :
    validateStep fs cfg acc i
      = .ok (if slotValidatesTrue fs cfg i = true then acc + 1 else acc) := by
  by_cases hblank : cfg.directory i = "" ∨ pyTrim (cfg.directory i) = ""
  · unfold validateStep slotValidatesTrue
    rw [if_pos hblank, if_pos hblank]
    simp
  · unfold slotRaises at h
    rw [if_neg hblank] at h
    cases hsp : strip_path (cfg.directory i) with
    | none =>
      rw [hsp] at h
      exact absurd h (by simp)
    | some p =>
      unfold validateStep slotValidatesTrue
      rw [if_neg hblank, if_neg hblank, hsp]
      by_cases hv : validate_load_images fs p = ValidationResult.ok
      · simp [validate_load_images_opt, hv]
      · simp [validate_load_images_opt, hv]

theorem validateLoop_error_of_raise (fs : FileSystem) (cfg : LoadConfig) :
    ∀ (l : List Nat) (acc : Nat), (∃ i ∈ l, slotRaises cfg i = true) →
    validateLoop fs cfg l acc = .error pyTypeErrorMsg := by
  intro l
  induction l with
  | nil =>
    intro acc h
    simp at h
  | cons x xs ih =>
    intro acc h
    by_cases hx : slotRaises cfg x = true
    · unfold validateLoop
      rw [validateStep_error_of_raise fs cfg acc x hx]
    · have hx2 : slotRaises cfg x = false := by simpa using hx
      unfold validateLoop
      rw [validateStep_eq_of_not_raise fs cfg acc x hx2]
      show validateLoop fs cfg xs
        (if slotValidatesTrue fs cfg x = true then acc + 1 else acc)
        = .error pyTypeErrorMsg
      apply ih
      rcases h with ⟨i, hi, hr⟩
      rcases List.mem_cons.mp hi with rfl | hmem
      · exact absurd hr hx
      · exact ⟨i, hmem, hr⟩

theorem validateLoop_count (fs : FileSystem) (cfg : LoadConfig) :
    ∀ (l : List Nat) (acc : Nat), (∀ i ∈ l, slotRaises cfg i = false) →
    validateLoop fs cfg l acc
      = .ok (acc + l.countP (fun i => slotValidatesTrue fs cfg i)) := by
  intro l
  induction l with
  | nil =>
    intro acc _
    simp [validateLoop]
  | cons x xs ih =>
    intro acc h
    unfold validateLoop
    rw [validateStep_eq_of_not_raise fs cfg acc x (h x (List.mem_cons_self x xs))]
    show validateLoop fs cfg xs
        (if slotValidatesTrue fs cfg x = true then acc + 1 else acc)
      = .ok (acc + (x :: xs).countP (fun i => slotValidatesTrue fs cfg i))
    rw [ih _ (fun i hi => h i (List.mem_cons_of_mem x hi))]
    by_cases hx : slotValidatesTrue fs cfg x = true
    · simp only [hx, List.countP_cons, Except.ok.injEq, if_true, if_false]
      omega
    · have hx2 : slotValidatesTrue fs cfg x = false := by simpa using hx
      simp only [hx2, Bool.false_eq_true, List.countP_cons, Except.ok.injEq,
        if_true, if_false]
      omega

/-- Claim C9 amended: when some considered slot (nonempty and nonblank)
strips to None - a path of only quote characters - VALIDATE_INPUTS raises
the TypeError of os.path.isdir(None) instead of returning; when no slot
raises, it returns true exactly when at least one configured nonblank slot
strips to a path naming an existing directory whose raw listing is
nonempty.  Entries of any kind and any extension count, so validation can
return true although no configured directory holds a file matching the
allowed image extensions. -/
theorem validate_inputs_characterization (fs : FileSystem) (cfg : LoadConfig) :
    ((∃ i ∈ List.range' 1 cfg.path_count, slotRaises cfg i = true) →
      VALIDATE_INPUTS fs cfg = .error pyTypeErrorMsg) ∧
    ((∀ i ∈ List.range' 1 cfg.path_count, slotRaises cfg i = false) →
      (VALIDATE_INPUTS fs cfg = .ok ValidationResult.ok ↔
       ∃ i ∈ List.range' 1 cfg.path_count, ∃ p,
         cfg.directory i ≠ "" ∧ pyTrim (cfg.directory i) ≠ "" ∧
         strip_path (cfg.directory i) = some p ∧
         isdir fs p = true ∧ (listdir fs p).length ≠ 0)) := by
  constructor
  · intro h
    unfold VALIDATE_INPUTS
    rw [validateLoop_error_of_raise fs cfg (List.range' 1 cfg.path_count) 0 h]
  · intro hsafe
    unfold VALIDATE_INPUTS
    rw [validateLoop_count fs cfg (List.range' 1 cfg.path_count) 0 hsafe]
    show (if 0 + (List.range' 1 cfg.path_count).countP
            (fun i => slotValidatesTrue fs cfg i) = 0 then
          Except.ok (ValidationResult.err
            "At least one valid directory must be specified.")
        else .ok ValidationResult.ok) = .ok ValidationResult.ok ↔ _
    simp only [Nat.zero_add]
    by_cases hc : (List.range' 1 cfg.path_count).countP
        (fun i => slotValidatesTrue fs cfg i) = 0
    · rw [if_pos hc]
      constructor
      · intro h
        exact absurd h (by simp)
      · rintro ⟨i, hi, p, h1, h2, h3, h4, h5⟩
        have hs := (slotValidatesTrue_iff fs cfg i).mpr ⟨p, h1, h2, h3, h4, h5⟩
        exact absurd hs (List.countP_eq_zero.mp hc i hi)
    · rw [if_neg hc]
      constructor
      · intro _
        obtain ⟨i, hi, hslot⟩ := List.countP_pos_iff.mp (Nat.pos_of_ne_zero hc)
        obtain ⟨p, h1, h2, h3, h4, h5⟩ := (slotValidatesTrue_iff fs cfg i).mp hslot
        exact ⟨i, hi, p, h1, h2, h3, h4, h5⟩
      · intro _
        rfl

/-- Witness for validate_inputs_characterization: a quote-only first slot
makes the call raise although the second slot is valid, and the safe
one-slot configuration over the non-image directory satisfies the
biconditional. -/
theorem validate_inputs_characterization_witness :
    ((1 ∈ List.range' 1 cfgC9raise.path_count ∧ slotRaises cfgC9raise 1 = true) ∧
     (∀ i ∈ List.range' 1 cfgC9.path_count, slotRaises cfgC9 i = false)) ∧
    (VALIDATE_INPUTS demoFSC9 cfgC9raise = .error pyTypeErrorMsg ∧
     (VALIDATE_INPUTS demoFSC9 cfgC9 = .ok ValidationResult.ok ↔
      ∃ i ∈ List.range' 1 cfgC9.path_count, ∃ p,
        cfgC9.directory i ≠ "" ∧ pyTrim (cfgC9.directory i) ≠ "" ∧
        strip_path (cfgC9.directory i) = some p ∧
        isdir demoFSC9 p = true ∧ (listdir demoFSC9 p).length ≠ 0)) :=
  ⟨⟨⟨by decide, by decide⟩, by decide⟩,
   ⟨(validate_inputs_characterization demoFSC9 cfgC9raise).1 ⟨1, by decide, by decide⟩,
    (validate_inputs_characterization demoFSC9 cfgC9).2 (by decide)⟩⟩


theorem is_changed_eq_contents (fs : FileSystem) (dirs : List String)
    (cap skip stride : Nat) :
    is_changed_load_images_multi fs dirs cap skip stride =
      runningDigestHex
        (((selectedContents fs dirs cap skip stride).map sha256hex).flatten) := by
  unfold is_changed_load_images_multi selectedContents calculate_file_hash
  rw [List.map_flatten]
  simp only [List.map_map, List.flatten_flatten]
  have hfun : (fun d => ((hashSelection fs cap skip stride d).map
        (fun e => sha256hex e.2.content)).flatten)
      = (List.flatten ∘ List.map sha256hex ∘ fun d =>
          (hashSelection fs cap skip stride d).map (fun e => e.2.content)) := by
    funext d
    simp only [Function.comp_def, List.map_map]
  rw [hfun]

theorem hexChar_inj {a b : Nat} (ha : a < 16) (hb : b < 16)
    (h : hexChar a = hexChar b) : a = b := by
  have key : ∀ a2, a2 < 16 → ∀ b2, b2 < 16 → hexChar a2 = hexChar b2 → a2 = b2 := by decide
  exact key a ha b hb h

theorem byteHex_inj {a b : Nat} (ha : a < 256) (hb : b < 256)
    (h : byteHex a = byteHex b) : a = b := by
  simp only [byteHex, List.cons.injEq, and_true] at h
  have e1 := hexChar_inj (Nat.mod_lt _ (by omega)) (Nat.mod_lt _ (by omega)) h.1
  have e2 := hexChar_inj (Nat.mod_lt _ (by omega)) (Nat.mod_lt _ (by omega)) h.2
  omega

theorem hexBody_inj : ∀ (bs cs : List Nat), (∀ b ∈ bs, b < 256) → (∀ c ∈ cs, c < 256) →
    (bs.map byteHex).flatten = (cs.map byteHex).flatten → bs = cs := by
  intro bs
  induction bs with
  | nil =>
    intro cs _ _ h
    cases cs with
    | nil => rfl
    | cons c cs2 =>
      exfalso
      have hlen := congrArg List.length h
      simp [byteHex] at hlen
  | cons b bs2 ih =>
    intro cs h1 h2 h
    cases cs with
    | nil =>
      exfalso
      have hlen := congrArg List.length h
      simp [byteHex] at hlen
    | cons c cs2 =>
      simp only [List.map_cons, List.flatten_cons, byteHex, List.cons_append,
        List.nil_append, List.cons.injEq] at h
      obtain ⟨hc1, hc2, hrest⟩ := h
      have hb : b < 256 := h1 b (List.mem_cons_self b bs2)
      have hc : c < 256 := h2 c (List.mem_cons_self c cs2)
      have e1 := hexChar_inj (Nat.mod_lt _ (by omega)) (Nat.mod_lt _ (by omega)) hc1
      have e2 := hexChar_inj (Nat.mod_lt _ (by omega)) (Nat.mod_lt _ (by omega)) hc2
      have hbc : b = c := by omega
      rw [hbc, ih cs2 (fun x hx => h1 x (List.mem_cons_of_mem b hx))
        (fun x hx => h2 x (List.mem_cons_of_mem c hx)) hrest]

theorem hexChar_ne_g {n : Nat} (hn : n < 16) : hexChar n ≠ Char.ofNat 103 := by
  have key : ∀ m, m < 16 → hexChar m ≠ Char.ofNat 103 := by decide
  exact key n hn

theorem byteHex_no_g {b : Nat} (_hb : b < 256) : Char.ofNat 103 ∉ byteHex b := by
  intro hmem
  simp only [byteHex, List.mem_cons, List.not_mem_nil, or_false] at hmem
  rcases hmem with h | h
  · exact hexChar_ne_g (Nat.mod_lt _ (by omega)) h.symm
  · exact hexChar_ne_g (Nat.mod_lt _ (by omega)) h.symm

theorem hexBody_no_g {bs : List Nat} (h : ∀ b ∈ bs, b < 256) :
    Char.ofNat 103 ∉ (bs.map byteHex).flatten := by
  intro hmem
  rw [List.mem_flatten] at hmem
  obtain ⟨l, hl, hc⟩ := hmem
  rw [List.mem_map] at hl
  obtain ⟨b, hb, rfl⟩ := hl
  exact byteHex_no_g (h b hb) hc

theorem append_g_inj : ∀ (xs ys r1 r2 : List Char),
    Char.ofNat 103 ∉ xs → Char.ofNat 103 ∉ ys →
    xs ++ Char.ofNat 103 :: r1 = ys ++ Char.ofNat 103 :: r2 →
    xs = ys ∧ r1 = r2 := by
  intro xs
  induction xs with
  | nil =>
    intro ys r1 r2 _ hy h
    cases ys with
    | nil => simpa using h
    | cons y ys2 =>
      exfalso
      simp only [List.nil_append, List.cons_append, List.cons.injEq] at h
      exact hy (h.1 ▸ List.mem_cons_self y ys2)
  | cons x xs2 ih =>
    intro ys r1 r2 hx hy h
    cases ys with
    | nil =>
      exfalso
      simp only [List.nil_append, List.cons_append, List.cons.injEq] at h
      exact hx (h.1.symm ▸ List.mem_cons_self x xs2)
    | cons y ys2 =>
      simp only [List.cons_append, List.cons.injEq] at h
      have hx2 : Char.ofNat 103 ∉ xs2 := fun hm => hx (List.mem_cons_of_mem x hm)
      have hy2 : Char.ofNat 103 ∉ ys2 := fun hm => hy (List.mem_cons_of_mem y hm)
      obtain ⟨hh, ht⟩ := ih ys2 r1 r2 hx2 hy2 h.2
      exact ⟨by rw [h.1, hh], ht⟩

theorem enc_stream_inj : ∀ (l1 l2 : List (List Nat)),
    (∀ bs ∈ l1, ∀ b ∈ bs, b < 256) → (∀ bs ∈ l2, ∀ b ∈ bs, b < 256) →
    (l1.map sha256hex).flatten = (l2.map sha256hex).flatten → l1 = l2 := by
  intro l1
  induction l1 with
  | nil =>
    intro l2 _ _ h
    cases l2 with
    | nil => rfl
    | cons cs l2' =>
      exfalso
      have hlen := congrArg List.length h
      simp [sha256hex] at hlen
      omega
  | cons bs l1' ih =>
    intro l2 h1 h2 h
    cases l2 with
    | nil =>
      exfalso
      have hlen := congrArg List.length h
      simp [sha256hex] at hlen
    | cons cs l2' =>
      have h' : (bs.map byteHex).flatten
            ++ Char.ofNat 103 :: (l1'.map sha256hex).flatten
          = (cs.map byteHex).flatten
            ++ Char.ofNat 103 :: (l2'.map sha256hex).flatten := by
        simpa [sha256hex, List.append_assoc] using h
      have hbsv := h1 bs (List.mem_cons_self bs l1')
      have hcsv := h2 cs (List.mem_cons_self cs l2')
      obtain ⟨hbody, hrest⟩ := append_g_inj _ _ _ _ (hexBody_no_g hbsv) (hexBody_no_g hcsv) h'
      have hbc : bs = cs := hexBody_inj bs cs hbsv hcsv hbody
      rw [hbc, ih l2' (fun x hx => h1 x (List.mem_cons_of_mem bs hx))
        (fun x hx => h2 x (List.mem_cons_of_mem cs hx)) hrest]

/-- Claim C10: the change-detection digest depends only on the ordered
sequence of the selected files byte contents: file names, directory names
and paths, and the cap, skip and stride values themselves are never fed to
the hash, so two configurations whose selected files carry byte-identical
contents in the same order produce the same digest, renamed files and
relocated directories included. -/
theorem fingerprint_content_only (fs1 fs2 : FileSystem) (dirs1 dirs2 : List String)
    (cap1 skip1 stride1 cap2 skip2 stride2 : Nat)
    (h : selectedContents fs1 dirs1 cap1 skip1 stride1
       = selectedContents fs2 dirs2 cap2 skip2 stride2) :
    is_changed_load_images_multi fs1 dirs1 cap1 skip1 stride1
      = is_changed_load_images_multi fs2 dirs2 cap2 skip2 stride2 := by
  rw [is_changed_eq_contents, is_changed_eq_contents, h]

/-- Witness for fingerprint_content_only: same file bytes behind different
file names, a different directory name and a different cap give the same
digest. -/
theorem fingerprint_content_only_witness :
    selectedContents demoFSH1 ["a"] 0 0 1 = selectedContents demoFSH2 ["b"] 1 0 1 ∧
    is_changed_load_images_multi demoFSH1 ["a"] 0 0 1
      = is_changed_load_images_multi demoFSH2 ["b"] 1 0 1 :=
  ⟨by decide, fingerprint_content_only demoFSH1 demoFSH2 ["a"] ["b"] 0 0 1 1 0 1 (by decide)⟩

/-- Counterexample to claim C7: reordering two configured directories does
not always change the digest.  Directories p and q are distinct and their
selected files nonempty, yet because their contents are byte-identical the
two orders hash identically. -/
theorem fingerprint_reorder_counterexample :
    ("p" : String) ≠ "q" ∧
    selectedContents demoFSH3 ["p", "q"] 0 0 1 ≠ [] ∧
    is_changed_load_images_multi demoFSH3 ["p", "q"] 0 0 1
      = is_changed_load_images_multi demoFSH3 ["q", "p"] 0 0 1 :=
  ⟨by decide, by decide, by decide⟩

/-- Claim C7 amended: with the external hash modelled as an ideal injective
digest, the fingerprint is deterministic and two fingerprints over 8-bit
file contents agree exactly when the ordered selected byte contents agree:
rehashing an unchanged set reproduces the digest, changing one byte in one
selected file changes the digest, and reordering two directories changes
the digest precisely when it changes the selected content sequence, so
swapping directories with byte-identical selected contents leaves the
digest unchanged. -/
theorem fingerprint_iff_contents (fs1 fs2 : FileSystem) (dirs1 dirs2 : List String)
    (cap1 skip1 stride1 cap2 skip2 stride2 : Nat)
    (hv1 : ∀ bs ∈ selectedContents fs1 dirs1 cap1 skip1 stride1, ∀ b ∈ bs, b < 256)
    (hv2 : ∀ bs ∈ selectedContents fs2 dirs2 cap2 skip2 stride2, ∀ b ∈ bs, b < 256) :
    is_changed_load_images_multi fs1 dirs1 cap1 skip1 stride1
      = is_changed_load_images_multi fs2 dirs2 cap2 skip2 stride2 ↔
    selectedContents fs1 dirs1 cap1 skip1 stride1
      = selectedContents fs2 dirs2 cap2 skip2 stride2 := by
  constructor
  · intro h
    rw [is_changed_eq_contents, is_changed_eq_contents] at h
    exact enc_stream_inj _ _ hv1 hv2 h
  · intro h
    exact fingerprint_content_only fs1 fs2 dirs1 dirs2 cap1 skip1 stride1
      cap2 skip2 stride2 h

/-- Witness for fingerprint_iff_contents at the renamed-and-capped
configurations of demoFSH1 and demoFSH2. -/
theorem fingerprint_iff_contents_witness :
    ((∀ bs ∈ selectedContents demoFSH1 ["a"] 0 0 1, ∀ b ∈ bs, b < 256) ∧
     (∀ bs ∈ selectedContents demoFSH2 ["b"] 1 0 1, ∀ b ∈ bs, b < 256)) ∧
    (is_changed_load_images_multi demoFSH1 ["a"] 0 0 1
       = is_changed_load_images_multi demoFSH2 ["b"] 1 0 1 ↔
     selectedContents demoFSH1 ["a"] 0 0 1 = selectedContents demoFSH2 ["b"] 1 0 1) :=
  ⟨⟨by decide, by decide⟩,
   fingerprint_iff_contents demoFSH1 demoFSH2 ["a"] ["b"] 0 0 1 1 0 1
     (by decide) (by decide)⟩
